import Mathlib

/-!
Verification of the RL decision-policy engine of the cyber-defense simulator.

The definitions below are a shallow embedding of the engine's source:
`cyber_defense_simulator/rl/contextual_bandit.py` (state encoding, Q-table,
epsilon-greedy bandit, epsilon decay, persistence),
`cyber_defense_simulator/rl/reward_calculator.py` (reward shaping) and
`cyber_defense_simulator/rl/rl_core.py` (the UCB-augmented selection variant).
Python dictionaries are modelled as association lists preserving insertion
order; Python floats are modelled as rationals (reals only where the source
uses transcendental functions).
-/

namespace CyberSim

/-- Association-list lookup, mirroring Python dict indexing `d[k]`
(`none` corresponds to a `KeyError` / failed `in` test). -/
def aget {α β : Type} [DecidableEq α] (k : α) : List (α × β) → Option β
  | [] => none
  | (a, b) :: t => if a = k then some b else aget k t

/-- Association-list assignment, mirroring Python dict assignment `d[k] = v`:
replaces the value in place when the key exists, appends otherwise. -/
def aset {α β : Type} [DecidableEq α] (k : α) (v : β) : List (α × β) → List (α × β)
  | [] => [(k, v)]
  | (a, b) :: t => if a = k then (k, v) :: t else (a, b) :: aset k v t

/-- `SeverityLevel` from `core/data_models.py`. -/
inductive SeverityLevel
  | low
  | medium
  | high
  | critical
  deriving DecidableEq

/-- The string `.value` of a `SeverityLevel`. -/
def SeverityLevel.val : SeverityLevel → String
  | .low => "low"
  | .medium => "medium"
  | .high => "high"
  | .critical => "critical"

/-- `AttackType` from `core/data_models.py`. -/
inductive AttackType
  | phishing
  | credential_misuse
  | lateral_movement
  | data_exfiltration
  | malware_execution
  | privilege_escalation
  deriving DecidableEq

/-- The string `.value` of an `AttackType`. -/
def AttackType.val : AttackType → String
  | .phishing => "phishing"
  | .credential_misuse => "credential_misuse"
  | .lateral_movement => "lateral_movement"
  | .data_exfiltration => "data_exfiltration"
  | .malware_execution => "malware_execution"
  | .privilege_escalation => "privilege_escalation"

/-- The RL `State` model from `core/data_models.py`. -/
structure State where
  incident_severity : SeverityLevel
  attack_type : AttackType
  confidence_level : ℚ
  num_affected_assets : ℤ
  mitre_techniques : List String
  deriving DecidableEq

/-- Confidence discretization `int(state.confidence_level * 20)`
(contextual_bandit.py line 86); on the well-formed range `0 ≤ c ≤ 1`
Python's truncation toward zero agrees with the floor. -/
def confidenceBin (c : ℚ) : ℤ := ⌊c * 20⌋

/-- Affected-asset discretization (contextual_bandit.py lines 89-98). -/
def assetsBin (n : ℤ) : String :=
  if n ≤ 2 then "0-2"
  else if n ≤ 5 then "3-5"
  else if n ≤ 10 then "6-10"
  else if n ≤ 20 then "11-20"
  else "21+"

/-- `ContextualBandit._state_to_key` (contextual_bandit.py lines 69-105):
the ordered concatenation of the four discretized fields. -/
def stateToKey (s : State) : String :=
  s.incident_severity.val ++ "_" ++ s.attack_type.val ++ "_c" ++
    toString (confidenceBin s.confidence_level) ++ "_a" ++
    assetsBin s.num_affected_assets

/-- The mutable state of `ContextualBandit` (contextual_bandit.py
lines 25-66). -/
structure Bandit where
  actions : List String
  learning_rate : ℚ
  epsilon : ℚ
  epsilon_decay : ℚ
  min_epsilon : ℚ
  discount_factor : ℚ
  q_init : ℚ
  q_table : List (String × List (String × ℚ))
  episode_count : ℕ
  update_count : ℕ
  action_counts : List (String × ℕ)
  deriving DecidableEq

/-- `ContextualBandit._get_q_values` (contextual_bandit.py lines 107-125):
lazily initializes every action of a new state key to `q_init`, and returns
the (possibly grown) agent together with the row of Q-values. -/
def getQValues (b : Bandit) (s : State) : Bandit × List (String × ℚ) :=
  match aget (stateToKey s) b.q_table with
  | some row => (b, row)
  | none =>
    let row := b.actions.map (fun a => (a, b.q_init))
    ({ b with q_table := aset (stateToKey s) row b.q_table }, row)

/-- `max(q_values.values())` over a row; `0` on the empty row, where Python
would raise (the action set is nonempty in every run). -/
def qmax : List (String × ℚ) → ℚ
  | [] => 0
  | p :: t => t.foldl (fun m x => max m x.2) p.2

/-- The TD target of `ContextualBandit.update` (contextual_bandit.py
lines 222-229): `reward` in bandit mode, one-step lookahead
`reward + gamma * max(Q[next_state])` when a successor state is supplied
(the successor row being lazily initialized by `_get_q_values`). -/
def targetOf (b : Bandit) (r : ℚ) : Option State → ℚ
  | none => r
  | some ns => r + b.discount_factor * qmax (getQValues b ns).2

/-- `ContextualBandit.update` (contextual_bandit.py lines 197-247).
`none` models the `KeyError` raised when the current state key (or the
action) is absent from the Q-table; otherwise the result carries the
updated agent and the returned TD error. -/
def update (b : Bandit) (s : State) (a : String) (r : ℚ) (ns : Option State) :
    Option (Bandit × ℚ) :=
  match aget (stateToKey s) b.q_table with
  | none => none
  | some row =>
    match aget a row with
    | none => none
    | some cur =>
      let b1 := match ns with
        | none => b
        | some n => (getQValues b n).1
      let td := targetOf b r ns - cur
      let newq := cur + b.learning_rate * td
      some ({ b1 with
              q_table := aset (stateToKey s) (aset a newq row) b1.q_table,
              update_count := b1.update_count + 1 }, td)

/-- `ContextualBandit.decay_epsilon` (contextual_bandit.py lines 249-264):
clamp the decayed epsilon at the floor, bump the episode counter, and report
the floor-reached warning, emitted exactly when the new epsilon equals the
floor while the old one was strictly above it (line 256). -/
def decayEpsilon (b : Bandit) : Bandit × Bool :=
  let e := max b.min_epsilon (b.epsilon * b.epsilon_decay)
  ({ b with epsilon := e, episode_count := b.episode_count + 1 },
   decide (e = b.min_epsilon) && decide (b.min_epsilon < b.epsilon))

/-- The agent after `n` successive `decay_epsilon()` calls. -/
def decayIter (b : Bandit) : ℕ → Bandit
  | 0 => b
  | n + 1 => (decayEpsilon (decayIter b n)).1

/-- The exploration rate after `n` `decay_epsilon()` calls. -/
def epsAt (b : Bandit) (n : ℕ) : ℚ := (decayIter b n).epsilon

/-- Whether call number `n + 1` of `decay_epsilon()` emits the floor-reached
warning. -/
def warnAt (b : Bandit) (n : ℕ) : Bool := (decayEpsilon (decayIter b n)).2

/-- The `Outcome` model from `core/data_models.py` (fields relevant to the
reward computation). -/
structure Outcome where
  success : Bool
  false_positive : Bool
  collateral_damage : Bool
  attack_contained : Bool
  time_to_remediate : ℚ
  deriving DecidableEq

/-- The `RewardFeedback` model from `core/data_models.py`: total reward plus
the ordered component breakdown. -/
structure RewardFeedback where
  reward : ℚ
  components : List (String × ℚ)
  deriving DecidableEq

/-- The reward constants of `RewardCalculator.__init__`
(reward_calculator.py lines 27-54). -/
structure RewardParams where
  reward_success : ℚ
  reward_failure : ℚ
  reward_false_positive : ℚ
  reward_collateral_damage : ℚ
  reward_uncertainty : ℚ
  time_penalty_factor : ℚ

/-- `RewardCalculator.calculate_reward` (reward_calculator.py lines 59-132):
mutually exclusive base term, optional speed bonus inside the success branch,
then the collateral-damage and time-penalty terms, each recorded in the
component map in insertion order. -/
def calculateReward (p : RewardParams) (o : Outcome) : RewardFeedback :=
  let speedBonus := p.reward_success * (2/10) * (1 - o.time_to_remediate / 10)
  let basePair :=
    if o.false_positive then
      (p.reward_false_positive, [("false_positive", p.reward_false_positive)])
    else if o.success && o.attack_contained then
      if o.time_to_remediate < 10 then
        (p.reward_success + speedBonus,
         [("success", p.reward_success), ("speed_bonus", speedBonus)])
      else
        (p.reward_success, [("success", p.reward_success)])
    else if !o.success then
      (p.reward_failure, [("failure", p.reward_failure)])
    else
      (p.reward_uncertainty, [("uncertainty", p.reward_uncertainty)])
  let withDamage :=
    if o.collateral_damage then
      (basePair.1 + p.reward_collateral_damage,
       basePair.2 ++ [("collateral_damage", p.reward_collateral_damage)])
    else basePair
  let timePenalty := -p.time_penalty_factor * o.time_to_remediate
  { reward := withDamage.1 + timePenalty,
    components := withDamage.2 ++ [("time_penalty", timePenalty)] }

/-- The sum of `components.values()`. -/
def sumComponents (l : List (String × ℚ)) : ℚ := (l.map Prod.snd).sum

/-- The runtime RL configuration `Config.get_rl_config()`
(core/config.py lines 106-116). -/
structure RLConfig where
  learning_rate : ℚ
  epsilon : ℚ
  epsilon_decay : ℚ
  min_epsilon : ℚ
  discount_factor : ℚ
  q_init : ℚ

/-- Python's `arg or default` applied to a float-or-None argument
(contextual_bandit.py lines 51-59): both `None` and `0.0` are falsy and fall
back to the configured default. -/
def orDefault (v : Option ℚ) (d : ℚ) : ℚ :=
  match v with
  | none => d
  | some x => if x = 0 then d else x

/-- `ContextualBandit.__init__` (contextual_bandit.py lines 25-66). -/
def initBandit (cfg : RLConfig) (actions : List String)
    (lr eps dec minE gamma qinit : Option ℚ) : Bandit :=
  { actions := actions
    learning_rate := orDefault lr cfg.learning_rate
    epsilon := orDefault eps cfg.epsilon
    epsilon_decay := orDefault dec cfg.epsilon_decay
    min_epsilon := orDefault minE cfg.min_epsilon
    discount_factor := orDefault gamma cfg.discount_factor
    q_init := orDefault qinit cfg.q_init
    q_table := []
    episode_count := 0
    update_count := 0
    action_counts := actions.map (fun a => (a, 0)) }

/-- The pickled snapshot written by `ContextualBandit.save`
(contextual_bandit.py lines 295-321), with the nested `config` dict
flattened. -/
structure Snapshot where
  q_table : List (String × List (String × ℚ))
  epsilon : ℚ
  episode_count : ℕ
  update_count : ℕ
  action_counts : List (String × ℕ)
  learning_rate : ℚ
  epsilon_decay : ℚ
  min_epsilon : ℚ
  discount_factor : ℚ
  q_init : ℚ

/-- `ContextualBandit.save` (contextual_bandit.py lines 295-321). -/
def save (b : Bandit) : Snapshot :=
  { q_table := b.q_table
    epsilon := b.epsilon
    episode_count := b.episode_count
    update_count := b.update_count
    action_counts := b.action_counts
    learning_rate := b.learning_rate
    epsilon_decay := b.epsilon_decay
    min_epsilon := b.min_epsilon
    discount_factor := b.discount_factor
    q_init := b.q_init }

/-- `ContextualBandit.load` (contextual_bandit.py lines 323-374): reconcile
the stored `min_epsilon` with the runtime floor, raise the stored epsilon to
the reconciled floor when it is below it, rebuild the agent through
`__init__`, then restore the table and the counters.  The boolean reports
whether the epsilon adjustment was logged (lines 349-354). -/
def load (cfg : RLConfig) (snap : Snapshot) (actions : List String) :
    Bandit × Bool :=
  let minE := max snap.min_epsilon cfg.min_epsilon
  let loadedEps := if snap.epsilon < minE then minE else snap.epsilon
  let agent := initBandit cfg actions (some snap.learning_rate)
    (some loadedEps) (some snap.epsilon_decay) (some minE)
    (some snap.discount_factor) (some snap.q_init)
  ({ agent with
      q_table := snap.q_table
      episode_count := snap.episode_count
      update_count := snap.update_count
      action_counts := snap.action_counts },
   decide (snap.epsilon < minE))

/-- The exploration bonus of the UCB-augmented exploitation branch of
`ContextualBandit.select_action` in rl_core.py (lines 187-199):
`0.3 * sqrt(log(total_visits + 1) / (action_visits + 1))`, with a flat `0.3`
when the state was never visited (a branch made dead by the visit increment
in `_get_q_values`, rl_core.py line 168). -/
noncomputable def ucbBonus (total visits : ℕ) : ℝ :=
  if 0 < total then
    (3/10) * Real.sqrt (Real.log ((total : ℝ) + 1) / ((visits : ℝ) + 1))
  else 3/10

/-- The exploitation score of an action in rl_core.py line 199:
Q-value plus the UCB bonus. -/
noncomputable def ucbScore (q : ℚ) (total visits : ℕ) : ℝ :=
  (q : ℝ) + ucbBonus total visits

/-- `max(ucb_values, key=ucb_values.get)` (rl_core.py line 201): the first
key attaining the maximal score, in action order. -/
noncomputable def pickBest (score : String → ℝ) : List String → Option String
  | [] => none
  | a :: t => some (t.foldl (fun best x => if score best < score x then x else best) a)

/-- The value of `self.action_counts[a]` after a trace of
`(state_key, selected_action)` selections: `select_action` increments the
per-action counter on every call regardless of the state (rl_core.py
lines 137, 191, 204). -/
def globalCount (trace : List (String × String)) (a : String) : ℕ :=
  (trace.filter (fun p => decide (p.2 = a))).length

/-- Modelled from the spec: "the visit counter of that action in that state"
— a per-(state, action) selection counter.  The code maintains no such
counter; this definition follows the claim's words for comparison with the
global counter the code actually uses. -/
def perStateCount (trace : List (String × String)) (s a : String) : ℕ :=
  (trace.filter (fun p => decide (p.1 = s) && decide (p.2 = a))).length

/-- A selection trace: the action `"a"` selected three times in state
`"s1"` and never in state `"s2"`. -/
def trace0 : List (String × String) := [("s1", "a"), ("s1", "a"), ("s1", "a")]

/-- A concrete state used by witnesses: a low-severity phishing incident
with confidence 0.51 and 3 affected assets. -/
def s0 : State := ⟨.low, .phishing, 51/100, 3, []⟩

/-- A concrete one-action agent with an empty Q-table. -/
def bEmpty : Bandit :=
  ⟨["block_ip"], 1/2, 2/5, 99/100, 3/20, 19/20, 7/10, [], 0, 0, [("block_ip", 0)]⟩

/-- `bEmpty` after its single state row has been initialized. -/
def bOne : Bandit := { bEmpty with q_table := [(stateToKey s0, [("block_ip", 7/10)])] }

/-! ### Association-list lemmas -/

theorem aget_aset_self {α β : Type} [DecidableEq α] (k : α) (v : β) :
    ∀ l : List (α × β), aget k (aset k v l) = some v := by
  intro l
  induction l with
  | nil => simp [aget, aset]
  | cons p t ih =>
    obtain ⟨a, b⟩ := p
    by_cases h : a = k
    · simp [aget, aset, h]
    · simp [aget, aset, h, ih]

theorem aget_aset_ne {α β : Type} [DecidableEq α] {k j : α} (v : β)
    (hjk : j ≠ k) : ∀ l : List (α × β), aget j (aset k v l) = aget j l := by
  intro l
  induction l with
  | nil => simp [aget, aset, Ne.symm hjk]
  | cons p t ih =>
    obtain ⟨a, b⟩ := p
    by_cases h : a = k
    · subst h
      simp [aget, aset, Ne.symm hjk]
    · simp [aget, aset, h, ih]

/-! ### C6: determinism of the state encoding -/

/-- C6: the state encoding is pure and total on well-formed contexts, and two
contexts that fall in the same discretization bucket on every field — same
severity, same attack category, same confidence bin `⌊confidence * 20⌋`, and
the same affected-asset range — are encoded to the same state key. -/
theorem stateToKey_bucket_deterministic (c1 c2 : State)
    (hw1 : 0 ≤ c1.confidence_level ∧ c1.confidence_level ≤ 1 ∧ 0 ≤ c1.num_affected_assets)
    (hw2 : 0 ≤ c2.confidence_level ∧ c2.confidence_level ≤ 1 ∧ 0 ≤ c2.num_affected_assets)
    (hsev : c1.incident_severity = c2.incident_severity)
    (hatk : c1.attack_type = c2.attack_type)
    (hconf : confidenceBin c1.confidence_level = confidenceBin c2.confidence_level)
    (hassets : assetsBin c1.num_affected_assets = assetsBin c2.num_affected_assets) :
    stateToKey c1 = stateToKey c2 := by
  simp only [stateToKey]
  rw [hsev, hatk, hconf, hassets]

/-- Witness for C6: two concrete contexts differing in confidence
(0.51 vs 0.52) and in asset count (3 vs 5) but bucket-equal on every field
share a state key. -/
theorem stateToKey_bucket_deterministic_witness :
    stateToKey ⟨.low, .phishing, 51/100, 3, []⟩ =
      stateToKey ⟨.low, .phishing, 52/100, 5, ["T1566"]⟩ :=
  stateToKey_bucket_deterministic _ _
    (by refine ⟨by norm_num, by norm_num, by norm_num⟩)
    (by refine ⟨by norm_num, by norm_num, by norm_num⟩)
    rfl rfl (by norm_num [confidenceBin]) (by decide)

/-! ### C2 and C9: reward shaping -/

/-- C2: for every parameterization and every outcome with positive
remediation time, the component values of `calculate_reward` sum exactly to
the returned total reward, and every contributing term appears in the
component map under its name: the mutually exclusive base term, the speed
bonus when granted, the collateral-damage term when that flag is set, and
the always-present time penalty. -/
theorem reward_components_sum (p : RewardParams) (o : Outcome)
    (ht : 0 < o.time_to_remediate) :
    sumComponents (calculateReward p o).components = (calculateReward p o).reward
    ∧ (o.false_positive = true →
        ("false_positive", p.reward_false_positive) ∈ (calculateReward p o).components)
    ∧ (o.false_positive = false → o.success = true → o.attack_contained = true →
        ("success", p.reward_success) ∈ (calculateReward p o).components
        ∧ (o.time_to_remediate < 10 →
            ("speed_bonus", p.reward_success * (2/10) * (1 - o.time_to_remediate / 10))
              ∈ (calculateReward p o).components))
    ∧ (o.false_positive = false → o.success = false →
        ("failure", p.reward_failure) ∈ (calculateReward p o).components)
    ∧ (o.false_positive = false → o.success = true → o.attack_contained = false →
        ("uncertainty", p.reward_uncertainty) ∈ (calculateReward p o).components)
    ∧ (o.collateral_damage = true →
        ("collateral_damage", p.reward_collateral_damage) ∈ (calculateReward p o).components)
    ∧ ("time_penalty", -p.time_penalty_factor * o.time_to_remediate)
        ∈ (calculateReward p o).components := by
  obtain ⟨s, fp, cd, ac, t⟩ := o
  cases s <;> cases fp <;> cases cd <;> cases ac <;>
    simp [calculateReward, sumComponents] <;>
    (try split_ifs) <;> (try simp_all) <;> (try ring)

/-- Witness for C2: the decomposition identity evaluated at the reference
reward constants on a fast successful containment with collateral damage. -/
theorem reward_components_sum_witness :
    (0 : ℚ) < 5
    ∧ sumComponents (calculateReward ⟨1, -1, -1/2, -3/10, 0, 1/100⟩
        ⟨true, false, true, true, 5⟩).components =
      (calculateReward ⟨1, -1, -1/2, -3/10, 0, 1/100⟩
        ⟨true, false, true, true, 5⟩).reward :=
  ⟨by norm_num,
   (reward_components_sum ⟨1, -1, -1/2, -3/10, 0, 1/100⟩
     ⟨true, false, true, true, 5⟩ (by norm_num)).1⟩

/-- C9: for every outcome flagged as a false positive, under the reference
sign conventions (negative false-positive and collateral penalties,
nonnegative time-penalty factor) and positive remediation time, the total
reward is strictly negative regardless of the remaining flags, and the base
term recorded is the negative `"false_positive"` component. -/
theorem false_positive_negative_reward (p : RewardParams) (o : Outcome)
    (hfp : o.false_positive = true)
    (h1 : p.reward_false_positive < 0)
    (h2 : p.reward_collateral_damage ≤ 0)
    (h3 : 0 ≤ p.time_penalty_factor)
    (ht : 0 < o.time_to_remediate) :
    (calculateReward p o).reward < 0
    ∧ ("false_positive", p.reward_false_positive) ∈ (calculateReward p o).components := by
  obtain ⟨s, fp, cd, ac, t⟩ := o
  cases fp with
  | false => cases hfp
  | true =>
    have hmul : 0 ≤ p.time_penalty_factor * t := mul_nonneg h3 (le_of_lt ht)
    cases cd <;> simp [calculateReward] <;> linarith [hmul]

/-- Witness for C9: a false positive with a tiny remediation time (0.001
minutes) still receives a negative total reward at the reference constants. -/
theorem false_positive_negative_reward_witness :
    (calculateReward ⟨1, -1, -1/2, -3/10, 0, 1/100⟩
        ⟨true, true, true, true, 1/1000⟩).reward < 0 :=
  (false_positive_negative_reward ⟨1, -1, -1/2, -3/10, 0, 1/100⟩
    ⟨true, true, true, true, 1/1000⟩ rfl (by norm_num) (by norm_num)
    (by norm_num) (by norm_num)).1

/-! ### C1 and C10: the Q-learning update -/

theorem getQValues_fst_update_count (b : Bandit) (s : State) :
    (getQValues b s).1.update_count = b.update_count := by
  unfold getQValues
  cases h : aget (stateToKey s) b.q_table <;> rfl

/-- C1: for a state whose key is initialized in the Q-table and an action
present in its row, `update` returns the TD error `target - current`,
writes back `current + alpha * td_error`, and increments the update counter
by one; the target is `reward` when no successor is supplied and
`reward + gamma * max(Q[next_state])` when one is, both through the single
`update` function selected purely by the optional successor. -/
theorem update_td_both_modes (b : Bandit) (s : State) (a : String) (r : ℚ)
    (ns : Option State) (row : List (String × ℚ)) (cur : ℚ)
    (hrow : aget (stateToKey s) b.q_table = some row)
    (hcur : aget a row = some cur) :
    ∃ b1 : Bandit,
      update b s a r ns = some (b1, targetOf b r ns - cur)
      ∧ aget (stateToKey s) b1.q_table =
          some (aset a (cur + b.learning_rate * (targetOf b r ns - cur)) row)
      ∧ aget a (aset a (cur + b.learning_rate * (targetOf b r ns - cur)) row) =
          some (cur + b.learning_rate * (targetOf b r ns - cur))
      ∧ b1.update_count = b.update_count + 1
      ∧ targetOf b r none = r
      ∧ ∀ n : State, targetOf b r (some n) =
          r + b.discount_factor * qmax (getQValues b n).2 := by
  cases ns with
  | none =>
    refine ⟨{ b with
        q_table := aset (stateToKey s)
          (aset a (cur + b.learning_rate * (targetOf b r none - cur)) row) b.q_table,
        update_count := b.update_count + 1 }, ?_,
      aget_aset_self _ _ _, aget_aset_self _ _ _, rfl, rfl, fun _ => rfl⟩
    simp [update, hrow, hcur, targetOf]
  | some n =>
    refine ⟨{ (getQValues b n).1 with
        q_table := aset (stateToKey s)
          (aset a (cur + b.learning_rate * (targetOf b r (some n) - cur)) row)
          (getQValues b n).1.q_table,
        update_count := (getQValues b n).1.update_count + 1 }, ?_,
      aget_aset_self _ _ _, aget_aset_self _ _ _, ?_, rfl, fun _ => rfl⟩
    · simp [update, hrow, hcur]
    · simp [getQValues_fst_update_count]

/-- Witness for C1: a bandit-mode update on a concrete one-state agent. -/
theorem update_td_both_modes_witness :
    ∃ b1 : Bandit,
      update bOne s0 "block_ip" 1 none = some (b1, targetOf bOne 1 none - 7/10)
      ∧ aget (stateToKey s0) b1.q_table =
          some (aset "block_ip"
            (7/10 + bOne.learning_rate * (targetOf bOne 1 none - 7/10))
            [("block_ip", 7/10)])
      ∧ aget "block_ip" (aset "block_ip"
            (7/10 + bOne.learning_rate * (targetOf bOne 1 none - 7/10))
            [("block_ip", 7/10)]) =
          some (7/10 + bOne.learning_rate * (targetOf bOne 1 none - 7/10))
      ∧ b1.update_count = bOne.update_count + 1
      ∧ targetOf bOne 1 none = 1
      ∧ ∀ n : State, targetOf bOne 1 (some n) =
          1 + bOne.discount_factor * qmax (getQValues bOne n).2 :=
  update_td_both_modes bOne s0 "block_ip" 1 none [("block_ip", 7/10)] (7/10)
    (by simp [bOne, bEmpty, aget]) (by simp [aget])

/-- C10: `update` indexes the Q-table directly for the current state and
fails (a `KeyError`) exactly when that state key is absent, while a
never-seen successor state is lazily initialized with every action at
`q_init` before its maximum is taken. -/
theorem update_keyerror_and_lazy_next (b : Bandit) (s : State) (a : String)
    (r : ℚ) (ns : Option State) :
    (aget (stateToKey s) b.q_table = none → update b s a r ns = none)
    ∧ (∀ row cur, aget (stateToKey s) b.q_table = some row →
        aget a row = some cur → ∃ out, update b s a r ns = some out)
    ∧ (∀ n : State, aget (stateToKey n) b.q_table = none →
        (getQValues b n).2 = b.actions.map (fun x => (x, b.q_init))
        ∧ aget (stateToKey n) (getQValues b n).1.q_table =
            some (b.actions.map (fun x => (x, b.q_init)))
        ∧ targetOf b r (some n) =
            r + b.discount_factor * qmax (b.actions.map (fun x => (x, b.q_init)))) := by
  refine ⟨fun h => by simp [update, h],
    fun row cur h1 h2 => by cases ns <;> simp [update, h1, h2],
    fun n hn => ⟨?_, ?_, ?_⟩⟩
  · simp [getQValues, hn]
  · simp [getQValues, hn, aget_aset_self]
  · simp [targetOf, getQValues, hn]

/-- Witness for C10: on an agent with an empty Q-table, `update` raises,
and the same never-seen state passed as a successor is initialized with all
actions at `q_init`. -/
theorem update_keyerror_and_lazy_next_witness :
    update bEmpty s0 "block_ip" 1 none = none
    ∧ (getQValues bEmpty s0).2 = bEmpty.actions.map (fun x => (x, bEmpty.q_init)) :=
  ⟨(update_keyerror_and_lazy_next bEmpty s0 "block_ip" 1 none).1
      (by simp [bEmpty, aget]),
   ((update_keyerror_and_lazy_next bEmpty s0 "block_ip" 1 none).2.2 s0
      (by simp [bEmpty, aget])).1⟩

/-! ### C4 and C7: epsilon decay -/

theorem decayIter_min_epsilon (b : Bandit) :
    ∀ n, (decayIter b n).min_epsilon = b.min_epsilon := by
  intro n
  induction n with
  | zero => rfl
  | succ n ih => simp [decayIter, decayEpsilon, ih]

theorem decayIter_epsilon_decay (b : Bandit) :
    ∀ n, (decayIter b n).epsilon_decay = b.epsilon_decay := by
  intro n
  induction n with
  | zero => rfl
  | succ n ih => simp [decayIter, decayEpsilon, ih]

theorem epsAt_succ (b : Bandit) (n : ℕ) :
    epsAt b (n + 1) = max b.min_epsilon (epsAt b n * b.epsilon_decay) := by
  simp [epsAt, decayIter, decayEpsilon, decayIter_min_epsilon,
    decayIter_epsilon_decay]

theorem epsAt_lb (b : Bandit) (h1 : b.min_epsilon ≤ b.epsilon) :
    ∀ n, b.min_epsilon ≤ epsAt b n := by
  intro n
  induction n with
  | zero => exact h1
  | succ n _ => rw [epsAt_succ]; exact le_max_left _ _

theorem epsAt_antitone (b : Bandit) (h0 : 0 ≤ b.min_epsilon)
    (h1 : b.min_epsilon ≤ b.epsilon) (h3 : b.epsilon_decay ≤ 1) (n : ℕ) :
    epsAt b (n + 1) ≤ epsAt b n := by
  rw [epsAt_succ]
  apply max_le (epsAt_lb b h1 n)
  have he : 0 ≤ epsAt b n := le_trans h0 (epsAt_lb b h1 n)
  calc epsAt b n * b.epsilon_decay ≤ epsAt b n * 1 :=
        mul_le_mul_of_nonneg_left h3 he
    _ = epsAt b n := mul_one _

theorem epsAt_absorb (b : Bandit) (h0 : 0 ≤ b.min_epsilon)
    (h3 : b.epsilon_decay ≤ 1) {n : ℕ}
    (h : epsAt b n = b.min_epsilon) : epsAt b (n + 1) = b.min_epsilon := by
  rw [epsAt_succ, h]
  exact max_eq_left (mul_le_of_le_one_right h0 h3)

theorem epsAt_stay (b : Bandit) (h0 : 0 ≤ b.min_epsilon)
    (h3 : b.epsilon_decay ≤ 1) {n : ℕ}
    (h : epsAt b n = b.min_epsilon) :
    ∀ i, epsAt b (n + i) = b.min_epsilon := by
  intro i
  induction i with
  | zero => simpa using h
  | succ i ih => simpa [← Nat.add_assoc] using epsAt_absorb b h0 h3 ih

theorem warnAt_iff (b : Bandit) (n : ℕ) :
    warnAt b n = true ↔
      (epsAt b (n + 1) = b.min_epsilon ∧ b.min_epsilon < epsAt b n) := by
  rw [epsAt_succ]
  simp [warnAt, decayEpsilon, epsAt, decayIter_min_epsilon,
    decayIter_epsilon_decay]

/-- The agent of spec Scenario B: epsilon 1.0, decay 0.9, floor 0.01. -/
def b100 : Bandit := ⟨[], 1/10, 1, 9/10, 1/100, 19/20, 0, [], 0, 0, []⟩

theorem epsAt_b100 (n : ℕ) :
    epsAt b100 n = max (1/100) ((9/10 : ℚ) ^ n) := by
  induction n with
  | zero =>
    show b100.epsilon = _
    norm_num [b100, max_def]
  | succ n ih =>
    rw [epsAt_succ, ih]
    show max (1/100 : ℚ) _ = _
    have h9 : (0 : ℚ) ≤ 9/10 := by norm_num
    calc max (1/100 : ℚ) (max (1/100) ((9/10) ^ n) * b100.epsilon_decay)
        = max (1/100) (max ((1/100) * (9/10)) ((9/10) ^ n * (9/10))) := by
          rw [show b100.epsilon_decay = 9/10 from rfl, max_mul_of_nonneg _ _ h9]
      _ = max (max (1/100 : ℚ) ((1/100) * (9/10))) ((9/10) ^ n * (9/10)) :=
          (max_assoc _ _ _).symm
      _ = max (1/100 : ℚ) ((9/10) ^ n * (9/10)) := by
          rw [max_eq_left (by norm_num : ((1:ℚ)/100) * (9/10) ≤ 1/100)]
      _ = max (1/100 : ℚ) ((9/10) ^ (n + 1)) := by rw [← pow_succ]

/-- C4: for every agent with `epsilon_decay ∈ [0,1]`, `min_epsilon ≥ 0` and
an initial epsilon at least the floor, epsilon is non-increasing across
`decay_epsilon()` calls and never drops below the floor; in Scenario B
(epsilon 1.0, decay 0.9, floor 0.01), after 100 calls epsilon equals exactly
0.01 and a further call leaves it unchanged. -/
theorem epsilon_decay_monotone_floor :
    (∀ b : Bandit, 0 ≤ b.min_epsilon → b.min_epsilon ≤ b.epsilon →
      0 ≤ b.epsilon_decay → b.epsilon_decay ≤ 1 →
      ∀ n, b.min_epsilon ≤ epsAt b n ∧ epsAt b (n + 1) ≤ epsAt b n)
    ∧ epsAt b100 100 = 1/100 ∧ epsAt b100 101 = 1/100 := by
  refine ⟨fun b h0 h1 _ h3 n =>
    ⟨epsAt_lb b h1 n, epsAt_antitone b h0 h1 h3 n⟩, ?_, ?_⟩
  · rw [epsAt_b100]; exact max_eq_left (by norm_num)
  · rw [epsAt_b100]; exact max_eq_left (by norm_num)

/-- Witness for C4: the monotone-decay invariant instantiated on the
Scenario B agent at step 3. -/
theorem epsilon_decay_monotone_floor_witness :
    b100.min_epsilon ≤ epsAt b100 3 ∧ epsAt b100 4 ≤ epsAt b100 3 :=
  epsilon_decay_monotone_floor.1 b100 (by norm_num [b100])
    (by norm_num [b100]) (by norm_num [b100]) (by norm_num [b100]) 3

/-- C7: over any sequence of `decay_epsilon()` calls the floor-reached
warning is emitted at most once; calls made once epsilon sits at the floor
leave it unchanged and emit no event; and whenever the floor is reached
from a strictly higher initial epsilon, the event fired at (or before) the
reaching call. -/
theorem floor_warning_emitted_once (b : Bandit)
    (h0 : 0 ≤ b.min_epsilon) (h1 : b.min_epsilon ≤ b.epsilon)
    (h3 : b.epsilon_decay ≤ 1) :
    (∀ j k, warnAt b j = true → warnAt b k = true → j = k)
    ∧ (∀ n, epsAt b n = b.min_epsilon →
        epsAt b (n + 1) = b.min_epsilon ∧ warnAt b n = false)
    ∧ (∀ n, b.min_epsilon < b.epsilon → epsAt b (n + 1) = b.min_epsilon →
        ∃ k, k ≤ n ∧ warnAt b k = true) := by
  refine ⟨?_, ?_, ?_⟩
  · intro j k hj hk
    rcases lt_trichotomy j k with h | h | h
    · exfalso
      obtain ⟨hj1, _⟩ := (warnAt_iff b j).mp hj
      obtain ⟨_, hk2⟩ := (warnAt_iff b k).mp hk
      obtain ⟨i, rfl⟩ := Nat.exists_eq_add_of_le (Nat.succ_le_of_lt h)
      rw [epsAt_stay b h0 h3 hj1 i] at hk2
      exact lt_irrefl _ hk2
    · exact h
    · exfalso
      obtain ⟨hk1, _⟩ := (warnAt_iff b k).mp hk
      obtain ⟨_, hj2⟩ := (warnAt_iff b j).mp hj
      obtain ⟨i, rfl⟩ := Nat.exists_eq_add_of_le (Nat.succ_le_of_lt h)
      rw [epsAt_stay b h0 h3 hk1 i] at hj2
      exact lt_irrefl _ hj2
  · intro n hn
    refine ⟨epsAt_absorb b h0 h3 hn, ?_⟩
    cases hw : warnAt b n with
    | false => rfl
    | true =>
      obtain ⟨_, hlt⟩ := (warnAt_iff b n).mp hw
      rw [hn] at hlt
      exact absurd hlt (lt_irrefl _)
  · intro n
    induction n with
    | zero =>
      intro hlt h1e
      exact ⟨0, le_refl 0, (warnAt_iff b 0).mpr ⟨h1e, hlt⟩⟩
    | succ n ih =>
      intro hlt h2e
      by_cases hn : epsAt b (n + 1) = b.min_epsilon
      · obtain ⟨k, hk, hw⟩ := ih hlt hn
        exact ⟨k, Nat.le_succ_of_le hk, hw⟩
      · have hge := epsAt_lb b h1 (n + 1)
        exact ⟨n + 1, le_refl _,
          (warnAt_iff b (n + 1)).mpr ⟨h2e, lt_of_le_of_ne hge (Ne.symm hn)⟩⟩

/-- An agent whose epsilon (1.0) hits the floor (0.5) on the first decay
(decay factor 0). -/
def bW : Bandit := ⟨[], 1/10, 1, 0, 1/2, 19/20, 0, [], 0, 0, []⟩

/-- Witness for C7: on `bW` the floor warning fires on the first call and
not on the second. -/
theorem floor_warning_emitted_once_witness :
    warnAt bW 0 = true ∧ warnAt bW 1 = false := by
  have h := floor_warning_emitted_once bW (by norm_num [bW])
    (by norm_num [bW]) (by norm_num [bW])
  have he1 : epsAt bW 1 = bW.min_epsilon := by
    rw [epsAt_succ]
    show max (1/2 : ℚ) (epsAt bW 0 * 0) = 1/2
    norm_num [max_def]
  constructor
  · obtain ⟨k, hk, hw⟩ := h.2.2 0 (by norm_num [bW]) he1
    rwa [Nat.le_zero.mp hk] at hw
  · exact (h.2.1 1 he1).2

/-! ### C3 and C5: persistence -/

theorem orDefault_some (x d : ℚ) (h : x = 0 → d = 0) :
    orDefault (some x) d = x := by
  show (if x = 0 then d else x) = x
  by_cases hx : x = 0
  · rw [if_pos hx, h hx, hx]
  · rw [if_neg hx]

theorem if_lt_max (a m : ℚ) : (if a < m then m else a) = max a m := by
  by_cases h : a < m
  · rw [if_pos h, max_eq_right h.le]
  · rw [if_neg h, max_eq_left (le_of_not_lt h)]

/-- C3 (amended): `load(save(policy))` restores the Q-table, the episode,
update and per-action counters, and the action list exactly; it restores
each hyperparameter exactly provided the stored value is not the Python
falsy `0.0` (otherwise `__init__`'s `or`-default replaces it with the
runtime config value); `min_epsilon` becomes the reconciled floor
`max(stored, runtime)` and epsilon becomes the stored epsilon raised to
that floor, again provided the resulting value is not falsy `0.0`. -/
theorem save_load_roundtrip_amended (cfg : RLConfig) (b : Bandit)
    (hminc : 0 ≤ cfg.min_epsilon)
    (hlr : b.learning_rate = 0 → cfg.learning_rate = 0)
    (hdec : b.epsilon_decay = 0 → cfg.epsilon_decay = 0)
    (hgam : b.discount_factor = 0 → cfg.discount_factor = 0)
    (hqi : b.q_init = 0 → cfg.q_init = 0)
    (heps : max b.epsilon (max b.min_epsilon cfg.min_epsilon) = 0 →
      cfg.epsilon = 0) :
    (load cfg (save b) b.actions).1.q_table = b.q_table
    ∧ (load cfg (save b) b.actions).1.episode_count = b.episode_count
    ∧ (load cfg (save b) b.actions).1.update_count = b.update_count
    ∧ (load cfg (save b) b.actions).1.action_counts = b.action_counts
    ∧ (load cfg (save b) b.actions).1.actions = b.actions
    ∧ (load cfg (save b) b.actions).1.learning_rate = b.learning_rate
    ∧ (load cfg (save b) b.actions).1.epsilon_decay = b.epsilon_decay
    ∧ (load cfg (save b) b.actions).1.discount_factor = b.discount_factor
    ∧ (load cfg (save b) b.actions).1.q_init = b.q_init
    ∧ (load cfg (save b) b.actions).1.min_epsilon =
        max b.min_epsilon cfg.min_epsilon
    ∧ (load cfg (save b) b.actions).1.epsilon =
        max b.epsilon (max b.min_epsilon cfg.min_epsilon) := by
  refine ⟨rfl, rfl, rfl, rfl, rfl, orDefault_some _ _ hlr,
    orDefault_some _ _ hdec, orDefault_some _ _ hgam, orDefault_some _ _ hqi,
    orDefault_some _ _ (fun h =>
      le_antisymm ((le_max_right _ _).trans h.le) hminc), ?_⟩
  show orDefault (some (if b.epsilon < max b.min_epsilon cfg.min_epsilon then
      max b.min_epsilon cfg.min_epsilon else b.epsilon)) cfg.epsilon = _
  rw [if_lt_max]
  exact orDefault_some _ _ heps

/-- The runtime configuration of the C3 counterexample: a zero decay factor
and a zero exploration floor, with a nonzero configured epsilon. -/
def cfg0 : RLConfig := ⟨1/2, 2/5, 0, 0, 1/2, 1/2⟩

/-- An agent built through `__init__` under `cfg0` whose epsilon decayed to
exactly 0 after one `decay_epsilon()` call. -/
def bDecayed : Bandit :=
  (decayEpsilon (initBandit cfg0 ["block_ip"] none none none none none none)).1

/-- Counterexample to C3 as stated: `bDecayed` has epsilon 0, the
reconciliation rule demands no adjustment (0 is not below the reconciled
floor 0), yet reloading its snapshot yields epsilon 2/5 — the falsy stored
value is replaced by the runtime default, so the round-trip is not the
identity. -/
theorem save_load_roundtrip_cex :
    bDecayed.epsilon = 0
    ∧ ¬ bDecayed.epsilon < max bDecayed.min_epsilon cfg0.min_epsilon
    ∧ (load cfg0 (save bDecayed) bDecayed.actions).1.epsilon ≠
        bDecayed.epsilon := by
  refine ⟨?_, ?_, ?_⟩ <;>
    norm_num [bDecayed, cfg0, decayEpsilon, initBandit, orDefault, load, save,
      max_def]

/-- Witness for the amended C3 on a concrete agent with nonzero stored
hyperparameters. -/
theorem save_load_roundtrip_amended_witness :
    (load ⟨1/10, 1/10, 995/1000, 1/100, 19/20, 1/2⟩ (save bOne)
        bOne.actions).1.q_table = bOne.q_table
    ∧ (load ⟨1/10, 1/10, 995/1000, 1/100, 19/20, 1/2⟩ (save bOne)
        bOne.actions).1.epsilon =
      max bOne.epsilon (max bOne.min_epsilon (1/100)) := by
  have h := save_load_roundtrip_amended ⟨1/10, 1/10, 995/1000, 1/100, 19/20, 1/2⟩
    bOne (by norm_num) (by norm_num [bOne, bEmpty]) (by norm_num [bOne, bEmpty])
    (by norm_num [bOne, bEmpty]) (by norm_num [bOne, bEmpty])
    (by norm_num [bOne, bEmpty, max_def])
  exact ⟨h.1, h.2.2.2.2.2.2.2.2.2.2⟩

/-- C5: `load` reconciles the exploration floor to the larger of the stored
and the runtime `min_epsilon`; the loaded epsilon never sits below that
floor, and whenever the stored epsilon is strictly below it the loaded
epsilon is raised exactly to the floor and the adjustment is logged; in
particular a snapshot stored with `min_epsilon` 0.05 reloaded under a
runtime floor of 0.2 yields an epsilon of at least 0.2. -/
theorem load_reconciles_min_epsilon (cfg : RLConfig) (snap : Snapshot)
    (actions : List String)
    (h1 : 0 ≤ snap.epsilon) (h2 : 0 ≤ cfg.min_epsilon)
    (h3 : 0 ≤ snap.min_epsilon) (h4 : 0 ≤ cfg.epsilon) :
    (load cfg snap actions).1.min_epsilon = max snap.min_epsilon cfg.min_epsilon
    ∧ max snap.min_epsilon cfg.min_epsilon ≤ (load cfg snap actions).1.epsilon
    ∧ (snap.epsilon < max snap.min_epsilon cfg.min_epsilon →
        (load cfg snap actions).1.epsilon = max snap.min_epsilon cfg.min_epsilon
        ∧ (load cfg snap actions).2 = true)
    ∧ (snap.min_epsilon = 1/20 → cfg.min_epsilon = 1/5 →
        1/5 ≤ (load cfg snap actions).1.epsilon) := by
  have hW : (load cfg snap actions).1.epsilon =
      orDefault (some (max snap.epsilon (max snap.min_epsilon cfg.min_epsilon)))
        cfg.epsilon := by
    show orDefault (some (if snap.epsilon < max snap.min_epsilon cfg.min_epsilon
        then max snap.min_epsilon cfg.min_epsilon else snap.epsilon))
        cfg.epsilon = _
    rw [if_lt_max]
  have hge : max snap.min_epsilon cfg.min_epsilon ≤
      (load cfg snap actions).1.epsilon := by
    rw [hW]
    simp only [orDefault]
    by_cases h : max snap.epsilon (max snap.min_epsilon cfg.min_epsilon) = 0
    · rw [if_pos h]
      have hle : max snap.min_epsilon cfg.min_epsilon ≤ 0 :=
        le_trans (le_max_right _ _) h.le
      linarith
    · rw [if_neg h]
      exact le_max_right _ _
  refine ⟨orDefault_some _ _ (fun h =>
      le_antisymm ((le_max_right _ _).trans h.le) h2), hge,
    fun hlt => ⟨?_, ?_⟩, fun e1 e2 => ?_⟩
  · have hM0 : 0 < max snap.min_epsilon cfg.min_epsilon :=
      lt_of_le_of_lt h1 hlt
    rw [hW, max_eq_right hlt.le]
    simp only [orDefault]
    rw [if_neg (ne_of_gt hM0)]
  · show decide (snap.epsilon < max snap.min_epsilon cfg.min_epsilon) = true
    exact decide_eq_true hlt
  · calc (1:ℚ)/5 = max (1/20 : ℚ) (1/5) := by rw [max_eq_right]; norm_num
      _ = max snap.min_epsilon cfg.min_epsilon := by rw [e1, e2]
      _ ≤ _ := hge

/-- The snapshot of spec Scenario C: stored floor 0.05. -/
def snapW : Snapshot := ⟨[], 1/10, 0, 0, [], 1/10, 995/1000, 1/20, 19/20, 1/2⟩

/-- The runtime configuration of spec Scenario C: floor raised to 0.2. -/
def cfgW : RLConfig := ⟨1/10, 1/10, 995/1000, 1/5, 19/20, 1/2⟩

/-- Witness for C5: Scenario C evaluated concretely. -/
theorem load_reconciles_min_epsilon_witness :
    (1:ℚ)/5 ≤ (load cfgW snapW ["block_ip"]).1.epsilon :=
  (load_reconciles_min_epsilon cfgW snapW ["block_ip"] (by norm_num [snapW])
    (by norm_num [cfgW]) (by norm_num [snapW])
    (by norm_num [cfgW])).2.2.2 rfl rfl

/-! ### C8: UCB-augmented exploitation (rl_core.py) -/

theorem foldl_pickBest_spec (score : String → ℝ) :
    ∀ (t : List String) (a : String),
      (t.foldl (fun best x => if score best < score x then x else best) a) ∈ a :: t
      ∧ score a ≤
          score (t.foldl (fun best x => if score best < score x then x else best) a)
      ∧ ∀ x ∈ t, score x ≤
          score (t.foldl (fun best x => if score best < score x then x else best) a) := by
  intro t
  induction t with
  | nil =>
    intro a
    exact ⟨List.mem_cons_self a [], le_refl _, by simp⟩
  | cons y t ih =>
    intro a
    simp only [List.foldl_cons]
    obtain ⟨hmem, hle, hall⟩ := ih (if score a < score y then y else a)
    have hstep : score a ≤ score (if score a < score y then y else a) ∧
        score y ≤ score (if score a < score y then y else a) := by
      by_cases hc : score a < score y
      · rw [if_pos hc]; exact ⟨hc.le, le_refl _⟩
      · rw [if_neg hc]; exact ⟨le_refl _, le_of_not_lt hc⟩
    refine ⟨?_, le_trans hstep.1 hle, ?_⟩
    · rcases List.mem_cons.mp hmem with h | h
      · rw [h]
        by_cases hc : score a < score y <;> simp [hc]
      · exact List.mem_cons_of_mem _ (List.mem_cons_of_mem _ h)
    · intro x hx
      rcases List.mem_cons.mp hx with h | h
      · rw [h]; exact le_trans hstep.2 hle
      · exact hall x h

/-- C8 (amended): in the exploitation branch of rl_core's `select_action`,
once the state has been visited (`total_visits > 0`), the score of each
action is its Q-value plus `0.3 * sqrt(ln(state_visits + 1) /
(action_visits + 1))` where `action_visits` is the agent-global selection
counter of the action (shared across all states), and the first action
attaining the maximal score in action order is selected deterministically. -/
theorem ucb_selection_amended (qv : String → ℚ) (counts : String → ℕ)
    (T : ℕ) (hT : 0 < T) (a : String) (t : List String) :
    (∀ (q : ℚ) (v : ℕ), ucbScore q T v =
      (q : ℝ) + (3/10) * Real.sqrt (Real.log ((T : ℝ) + 1) / ((v : ℝ) + 1)))
    ∧ ∃ sel, pickBest (fun x => ucbScore (qv x) T (counts x)) (a :: t) = some sel
        ∧ sel ∈ a :: t
        ∧ ∀ x ∈ a :: t,
            ucbScore (qv x) T (counts x) ≤ ucbScore (qv sel) T (counts sel) := by
  constructor
  · intro q v
    simp only [ucbScore, ucbBonus]
    rw [if_pos hT]
  · obtain ⟨hmem, hle, hall⟩ :=
      foldl_pickBest_spec (fun x => ucbScore (qv x) T (counts x)) t a
    refine ⟨_, rfl, hmem, ?_⟩
    intro x hx
    rcases List.mem_cons.mp hx with h | h
    · rw [h]; exact hle
    · exact hall x h

/-- Witness for the amended C8 on a singleton action list. -/
theorem ucb_selection_amended_witness :
    0 < 1
    ∧ ∃ sel, pickBest (fun _ => ucbScore 0 1 0) ["block_ip"] = some sel
        ∧ sel ∈ ["block_ip"]
        ∧ ∀ x ∈ ["block_ip"], ucbScore 0 1 0 ≤ ucbScore 0 1 0 :=
  ⟨by norm_num,
   (ucb_selection_amended (fun _ => 0) (fun _ => 0) 1 (by norm_num)
     "block_ip" []).2⟩

/-- Counterexample to C8 as stated: after the trace `trace0` (action `"a"`
selected three times in state `"s1"`, never in `"s2"`), the code's score
for `"a"` in state `"s2"` uses the global counter 3, which differs from the
value the claim's per-state counter (0) would give. -/
theorem ucb_per_state_cex :
    globalCount trace0 "a" = 3
    ∧ perStateCount trace0 "s2" "a" = 0
    ∧ ucbScore 0 1 (globalCount trace0 "a") ≠
        ucbScore 0 1 (perStateCount trace0 "s2" "a") := by
  have h3 : globalCount trace0 "a" = 3 := by decide
  have h0 : perStateCount trace0 "s2" "a" = 0 := by decide
  refine ⟨h3, h0, ?_⟩
  rw [h3, h0]
  have hlog : (0:ℝ) < Real.log 2 := Real.log_pos one_lt_two
  have e1 : ucbScore 0 1 3 = (3/10 : ℝ) * Real.sqrt (Real.log 2 / 4) := by
    simp only [ucbScore, ucbBonus]
    rw [if_pos (by norm_num : 0 < 1)]
    push_cast
    norm_num
  have e2 : ucbScore 0 1 0 = (3/10 : ℝ) * Real.sqrt (Real.log 2) := by
    simp only [ucbScore, ucbBonus]
    rw [if_pos (by norm_num : 0 < 1)]
    push_cast
    norm_num
  rw [e1, e2]
  have hlt : Real.sqrt (Real.log 2 / 4) < Real.sqrt (Real.log 2) := by
    apply Real.sqrt_lt_sqrt (by positivity)
    exact div_lt_self hlog (by norm_num)
  exact ne_of_lt (mul_lt_mul_of_pos_left hlt (by norm_num))

end CyberSim
